import Mathlib

/-!
# Verification of the SWAT-MODFLOW dashboard's parsing / aggregation core

Shallow embedding of the data-munging core of `streamlit_app.py`:
the flow-record line scanner (`process_swatmf_data`), the recharge-grid
scanner (`read_recharge_file`), the monthly aggregations
(`monthly_stats`, `compute_monthly_mean`) and the unit converter
(`convert_recharge_to_mm_per_month`).

A line of the input file is modelled as a `List Char`.  Python's
whitespace utilities (`str.split`, `str.strip`, substring containment)
are re-implemented on character lists.  Python's `int(...)` and
`float(...)` are modelled as partial parses into `Int` / `ℚ`
(`float` is modelled on decimal and exponent literals, which covers the
numeric tokens these data files contain; Python additionally accepts
`inf` / `nan` spellings and underscore separators, which never occur in
the claims under study).  Rationals stand in for IEEE doubles: every
literal involved is exactly representable and no rounding-sensitive
property is at stake.  A raised exception is modelled as `Option.none`,
and a floating NaN produced by the aggregations is likewise modelled as
`Option.none`.
-/

namespace Koki

/-- The whitespace characters recognised by Python's `str.split()` /
`str.strip()` (ASCII subset, which is all these data files contain). -/
def isWS (c : Char) : Bool :=
  c = ' ' || c = '\t' || c = '\n' || c = '\r' || c = '\x0b' || c = '\x0c'

/-- A line of an input file. -/
abbrev Line := List Char

/-- Worker for `pySplit`: `acc` holds the (reversed) token being read. -/
def pySplitAux (l : List Char) (acc : List Char) : List (List Char) :=
  match l with
  | [] => if acc.isEmpty then [] else [acc.reverse]
  | c :: cs =>
    if isWS c then
      if acc.isEmpty then pySplitAux cs [] else acc.reverse :: pySplitAux cs []
    else pySplitAux cs (c :: acc)

/-- Python's `str.split()` with no argument: split on runs of whitespace,
dropping empty tokens. -/
def pySplit (l : List Char) : List (List Char) := pySplitAux l []

/-- Python's `str.strip()`: remove leading and trailing whitespace. -/
def pyStrip (l : List Char) : List Char :=
  ((l.dropWhile isWS).reverse.dropWhile isWS).reverse

/-- Python's substring containment test `pat in line`. -/
def containsTok (l pat : List Char) : Bool :=
  l.tails.any (fun t => pat.isPrefixOf t)

/-- Numeric value of a digit string (caller guarantees all digits). -/
def digitsToNat (cs : List Char) : Nat :=
  cs.foldl (fun a c => a * 10 + (c.toNat - 48)) 0

/-- Nonempty and all decimal digits. -/
def allDigits (cs : List Char) : Bool :=
  !cs.isEmpty && cs.all (fun c => c.isDigit)

/-- Python's `int(token)` on a whitespace-free token: optional sign
followed by at least one digit; `none` models a raised `ValueError`. -/
def pyInt? (t : List Char) : Option Int :=
  if t.head? = some '+' then
    (if allDigits t.tail then some ((digitsToNat t.tail : Int)) else none)
  else if t.head? = some '-' then
    (if allDigits t.tail then some (-(digitsToNat t.tail : Int)) else none)
  else if allDigits t then some ((digitsToNat t : Int)) else none

/-- Not an exponent marker. -/
def notExp (c : Char) : Bool := !(c = 'e' || c = 'E')

/-- Fraction digits of an unsigned mantissa (the part of a float
literal before any exponent marker): accepted mantissas are `123`,
`123.`, `123.45` and `.45`, as in Python's `float`.  Returns the digit
string after the decimal point (empty when there is no point). -/
def fracDigits? (mant : List Char) : Option (List Char) :=
  if mant.dropWhile (fun c => c.isDigit) = [] then
    (if (mant.takeWhile (fun c => c.isDigit)).isEmpty then none else some [])
  else if (mant.dropWhile (fun c => c.isDigit)).head? = some '.' then
    (if (!(mant.takeWhile (fun c => c.isDigit)).isEmpty
          || !(mant.dropWhile (fun c => c.isDigit)).tail.isEmpty)
        && (mant.dropWhile (fun c => c.isDigit)).tail.all (fun c => c.isDigit) then
      some (mant.dropWhile (fun c => c.isDigit)).tail
    else none)
  else none

/-- Decompose an unsigned float literal into integer-part digits,
fraction digits and exponent: `12.34e-5 ↦ ("12", "34", -5)`. -/
def floatParts? (r : List Char) : Option (List Char × List Char × Int) :=
  (fracDigits? (r.takeWhile notExp)).bind (fun frac =>
    if r.dropWhile notExp = [] then
      some ((r.takeWhile notExp).takeWhile (fun c => c.isDigit), frac, 0)
    else
      (pyInt? ((r.dropWhile notExp).tail)).map (fun e =>
        ((r.takeWhile notExp).takeWhile (fun c => c.isDigit), frac, e)))

/-- The rational value `±ip.frac × 10^e`, built by a single `mkRat` over
integer arithmetic. -/
def floatVal (neg : Bool) (ip frac : List Char) (e : Int) : ℚ :=
  let m : Int := (digitsToNat (ip ++ frac) : Int)
  let m : Int := if neg then -m else m
  if 0 ≤ e then mkRat (m * ((10 : Int) ^ e.toNat)) ((10 : Nat) ^ frac.length)
  else mkRat m ((10 : Nat) ^ frac.length * (10 : Nat) ^ (-e).toNat)

/-- Python's `float(token)` on a whitespace-free token (decimal and
exponent literals; `none` models a raised `ValueError`). -/
def pyFloat? (t : List Char) : Option ℚ :=
  if t.head? = some '+' then
    (floatParts? t.tail).map (fun p => floatVal false p.1 p.2.1 p.2.2)
  else if t.head? = some '-' then
    (floatParts? t.tail).map (fun p => floatVal true p.1 p.2.1 p.2.2)
  else (floatParts? t).map (fun p => floatVal false p.1 p.2.1 p.2.2)

/-- The literal marker `"month:"` of both scanners. -/
def monthMarker : List Char := "month:".toList

/-- The literal marker `"Layer"` of the flow-record scanner. -/
def layerMarker : List Char := "Layer".toList

/-- `line.strip() == ''`. -/
def isBlankLine (l : Line) : Bool := (pyStrip l).isEmpty

/-- One row of the `data` list built by `process_swatmf_data`:
`[current_year, current_month, layer, row, column, rate]`.  The year and
month are `Option`s because the running context starts out as Python
`None` and a data line may be reached before any header has set it. -/
structure FlowRecord where
  year : Option Int
  month : Option Int
  layer : Int
  row : Int
  col : Int
  rate : ℚ
deriving DecidableEq, Repr

/-- The running state of `process_swatmf_data`'s loop:
`current_month`, `current_year` and the accumulated `data` list. -/
structure PState where
  month : Option Int
  year : Option Int
  recs : List FlowRecord
deriving DecidableEq, Repr

/-- One iteration of the line loop of `process_swatmf_data`
(src/streamlit_app.py lines 61-83).  The `month:` branch mirrors
Python's `try` block statement by statement: `current_month` is
assigned before `int(parts[3])` is attempted, so a failure of the
second conversion leaves the first assignment in place. -/
def step (s : PState) (line : Line) : PState :=
  if containsTok line monthMarker then
    match (pySplit line).get? 1 with
    | none => s
    | some t1 =>
      match pyInt? t1 with
      | none => s
      | some m =>
        match (pySplit line).get? 3 with
        | none => { s with month := some m }
        | some t3 =>
          match pyInt? t3 with
          | none => { s with month := some m }
          | some y => { s with month := some m, year := some y }
  else if containsTok line layerMarker then s
  else if isBlankLine line then s
  else
    match pySplit line with
    | [t0, t1, t2, t3] =>
      match pyInt? t0, pyInt? t1, pyInt? t2, pyFloat? t3 with
      | some la, some ro, some co, some ra =>
        { s with recs := s.recs ++ [⟨s.year, s.month, la, ro, co, ra⟩] }
      | _, _, _, _ => s
    | _ => s

/-- `process_swatmf_data` (src/streamlit_app.py lines 55-86): scan the
file's lines and return the accumulated record list (the rows of the
returned data frame). -/
def process_swatmf_data (ls : List Line) : List FlowRecord :=
  (ls.foldl step ⟨none, none, []⟩).recs

/-- A syntactically valid data line: no `month:` or `Layer` marker, and
exactly four whitespace tokens parsing as (int, int, int, float).
(A blank line has no tokens, so it is excluded by the token count.) -/
def isDataLine (line : Line) : Bool :=
  !containsTok line monthMarker && !containsTok line layerMarker &&
  (match pySplit line with
   | [t0, t1, t2, t3] =>
     (pyInt? t0).isSome && (pyInt? t1).isSome && (pyInt? t2).isSome && (pyFloat? t3).isSome
   | _ => false)

/-- The attempted `int(parts[i])` conversion of a header line raises:
the token is missing (`IndexError`) or is not an integer literal
(`ValueError`). -/
def tokIntFails (parts : List (List Char)) (i : Nat) : Bool :=
  match parts.get? i with
  | none => true
  | some t => (pyInt? t).isNone

/-! ## Recharge-grid scanner (`read_recharge_file`) -/

/-- The marker `"Grid data:"`. -/
def gridDataMarker : List Char := "Grid data:".toList

/-- The marker `"Monthly Averaged Recharge Values"`. -/
def monthlyAvgMarker : List Char := "Monthly Averaged Recharge Values".toList

/-- The `data` dictionary of `read_recharge_file`, modelled as an
insertion-ordered association list from `(year, month)` to the list of
accumulated grid rows. -/
abbrev RDict := List ((Int × Int) × List (List ℚ))

/-- Python `dict` assignment `d[k] = v`: replace in place if the key
exists, else append. -/
def dictSet (d : RDict) (k : Int × Int) (v : List (List ℚ)) : RDict :=
  if d.any (fun e => e.1 = k) then d.map (fun e => if e.1 = k then (k, v) else e)
  else d ++ [(k, v)]

/-- Python `dict` lookup `d.get(k)`. -/
def dictGet? (d : RDict) (k : Int × Int) : Option (List (List ℚ)) :=
  (d.find? (fun e => e.1 = k)).map (fun e => e.2)

/-- The running state of `read_recharge_file`'s loop: the `data`
dictionary, `current_year`, `current_month` and `reading_data`. -/
structure RState where
  data : RDict
  year : Option Int
  month : Option Int
  reading : Bool
deriving Repr

/-- One iteration of the line loop of `read_recharge_file`
(src/streamlit_app.py lines 96-120).  The line is stripped first; the
`month:` branch again mirrors the `try` block's assignment order, a
fully parsed header resets the accumulator `data[(year, month)] = []`
and turns `reading_data` on, and a partially parsed one turns it off.
While `reading_data` is on, a line of more than one token whose tokens
all parse as floats is appended to the current key's accumulator (that
key always exists, having been created by the header that set
`reading`; the `.map` update leaves other keys untouched). -/
def rstep (s : RState) (rawLine : Line) : RState :=
  let line := pyStrip rawLine
  if containsTok line monthMarker then
    match (pySplit line).get? 1 with
    | none => { s with reading := false }
    | some t1 =>
      match pyInt? t1 with
      | none => { s with reading := false }
      | some m =>
        match (pySplit line).get? 3 with
        | none => { s with month := some m, reading := false }
        | some t3 =>
          match pyInt? t3 with
          | none => { s with month := some m, reading := false }
          | some y =>
            { data := dictSet s.data (y, m) [], year := some y, month := some m,
              reading := true }
  else if gridDataMarker.isPrefixOf line || monthlyAvgMarker.isPrefixOf line then s
  else if line.isEmpty then s
  else if s.reading then
    match pySplit line with
    | parts =>
      if 1 < parts.length then
        match parts.mapM pyFloat? with
        | some values =>
          match s.year, s.month with
          | some y, some m =>
            { s with data := s.data.map (fun e =>
                if e.1 = (y, m) then (e.1, e.2 ++ [values]) else e) }
          | _, _ => s
        | none => s
      else s
  else { s with reading := false }

/-- The line loop of `read_recharge_file` over a whole file. -/
def processRecharge (ls : List Line) : RState :=
  ls.foldl rstep ⟨[], none, none, false⟩

/-- A recharge grid of the fixed shape `grid_shape = (68, 94)`; a cell
holds `none` where the source array holds NaN. -/
abbrev RGrid := Fin 68 → Fin 94 → Option ℚ

/-- Post-processing of one accumulated block
(src/streamlit_app.py lines 122-128): `np.array(data[key])` followed by
`.reshape((68, 94))` when the array is nonempty, and a grid full of NaN
when it is empty.  `none` models a raised `ValueError`: `np.array`
raises on ragged (inhomogeneous) rows and `reshape` raises when the
total element count differs from `68 * 94`. -/
def reshapeBlock (rows : List (List ℚ)) : Option RGrid :=
  if rows.all (fun r => r.length = (rows.headD []).length) then
    if rows.flatten.isEmpty then some (fun _ _ => none)
    else if rows.flatten.length = 68 * 94 then
      some (fun i j => some (rows.flatten.getD (i.1 * 94 + j.1) 0))
    else none
  else none

/-- `read_recharge_file` (src/streamlit_app.py lines 89-130): scan the
lines, then reshape every accumulated block; the whole call raises
(`none`) if any block fails to reshape. -/
def read_recharge_file (ls : List Line) : Option (List ((Int × Int) × RGrid)) :=
  (processRecharge ls).data.mapM (fun e => (reshapeBlock e.2).map (fun g => (e.1, g)))

/-! ## Aggregations and unit conversion -/

/-- `np.nanmean` along one cell: the mean of the non-missing entries,
`none` (NaN) when every entry is missing. -/
def nanmean (xs : List (Option ℚ)) : Option ℚ :=
  if (xs.filterMap id).isEmpty then none
  else some ((xs.filterMap id).sum / (((xs.filterMap id).length : ℚ)))

/-- `compute_monthly_mean` (src/streamlit_app.py lines 132-141) at one
calendar month: stack the grids of all `(year, month)` keys sharing the
month and take `np.nanmean` over the stack, element-wise.  `none` is
returned for a month with no grids (for such a month the source never
creates a `mean_data` entry). -/
def compute_monthly_mean (data : List ((Int × Int) × RGrid)) (m : Int) : Option RGrid :=
  if ((data.filter (fun e => e.1.2 = m)).map (fun e => e.2)).isEmpty then none
  else some (fun i j =>
    nanmean (((data.filter (fun e => e.1.2 = m)).map (fun e => e.2)).map (fun g => g i j)))

/-- The element-wise monthly mean as the spec's words state it
(spec.md §3, MonthlyRechargeMean): over all grids of that month across
years, the mean of the cell's non-missing values, missing when the cell
is missing in every year.  Stated separately from
`compute_monthly_mean` so the two can be compared. -/
def specMonthlyMeanCell (data : List ((Int × Int) × RGrid)) (m : Int)
    (i : Fin 68) (j : Fin 94) : Option ℚ :=
  if ((data.filter (fun e => e.1.2 = m)).filterMap (fun e => e.2 i j)).isEmpty then none
  else some (((data.filter (fun e => e.1.2 = m)).filterMap (fun e => e.2 i j)).sum /
    (((data.filter (fun e => e.1.2 = m)).filterMap (fun e => e.2 i j)).length : ℚ))

/-- Mean of a list of rates (`pandas` mean over a group). -/
def sampleMean (xs : List ℚ) : ℚ := xs.sum / (xs.length : ℚ)

/-- Sample variance with `ddof = 1`, i.e. the square of the `pandas`
group `std`: `none` (NaN) for a group of fewer than two values.  The
source's standard deviation is the square root of this value; taking
the square root preserves both definedness (`none` ↔ NaN) and zeroness,
which is all the claims about `std` depend on, and keeps the
development inside `ℚ`. -/
def sampleVar? (xs : List ℚ) : Option ℚ :=
  if xs.length ≤ 1 then none
  else some ((xs.map (fun x => (x - sampleMean xs) ^ 2)).sum / ((xs.length : ℚ) - 1))

/-- One row of the aggregated `monthly_stats` frame. -/
structure MonthlyStat where
  mean : ℚ
  std2 : Option ℚ
deriving DecidableEq, Repr

/-- The rates contributing to the group keyed `(month, row, column)`.
`groupby` drops rows whose grouping key is missing, so a record with
`month = none` never contributes. -/
def ratesAt (recs : List FlowRecord) (k : Int × Int × Int) : List ℚ :=
  (recs.filter (fun r => r.month = some k.1 ∧ r.row = k.2.1 ∧ r.col = k.2.2)).map
    (fun r => r.rate)

/-- `monthly_stats` (src/streamlit_app.py lines 270-271):
`df.groupby(['Month', 'Row', 'Column'])['Rate'].agg(['mean', 'std'])`,
read at one key.  A key with no contributing records has no group
(`none`), not a zero row. -/
def monthly_stats (recs : List FlowRecord) (k : Int × Int × Int) : Option MonthlyStat :=
  if ratesAt recs k = [] then none
  else some ⟨sampleMean (ratesAt recs k), sampleVar? (ratesAt recs k)⟩

/-- The distinct group keys of the aggregation, in first-occurrence
order. -/
def statKeys (recs : List FlowRecord) : List (Int × Int × Int) :=
  (recs.filterMap (fun r => r.month.map (fun m => (m, r.row, r.col)))).dedup

/-- Re-reading the aggregated frame as a record collection, one record
per group carrying the group's mean as its rate (year and layer are not
part of the frame; they are set to `none` and `0`, neither takes part
in grouping). -/
def restat (recs : List FlowRecord) : List FlowRecord :=
  (statKeys recs).map (fun k =>
    ⟨none, some k.1, 0, k.2.1, k.2.2, sampleMean (ratesAt recs k)⟩)

/-- `days_in_month` (src/streamlit_app.py lines 423-426): the literal
non-leap-year dictionary; `none` models the `KeyError` raised by a
lookup of any other key. -/
def days_in_month (m : Int) : Option ℚ :=
  if m = 1 then some 31 else if m = 2 then some 28 else if m = 3 then some 31
  else if m = 4 then some 30 else if m = 5 then some 31 else if m = 6 then some 30
  else if m = 7 then some 31 else if m = 8 then some 31 else if m = 9 then some 30
  else if m = 10 then some 31 else if m = 11 then some 30 else if m = 12 then some 31
  else none

/-- `convert_recharge_to_mm_per_month` (src/streamlit_app.py lines
429-433): look up the month's day count (a `KeyError` propagates as
`none`), multiply to m³/month, divide by the cell area, and scale
metres to millimetres. -/
def convert_recharge_to_mm_per_month (v : ℚ) (m : Int) (area : ℚ) : Option ℚ :=
  (days_in_month m).map (fun days => v * days / area * 1000)

/-! ## Helper lemmas about the tokenizer and the numeric parses -/

theorem pySplitAux_mem_acc (l : List Char) :
    ∀ (acc : List Char) (c : Char), c ∈ acc → ∃ t ∈ pySplitAux l acc, c ∈ t := by
  induction l with
  | nil =>
    intro acc c hc
    have hne : acc.isEmpty = false := by
      cases acc with
      | nil => cases hc
      | cons a as => rfl
    refine ⟨acc.reverse, ?_, ?_⟩
    · simp [pySplitAux, hne]
    · simpa using hc
  | cons d ds ih =>
    intro acc c hc
    by_cases hd : isWS d
    · have hne : acc.isEmpty = false := by
        cases acc with
        | nil => cases hc
        | cons a as => rfl
      refine ⟨acc.reverse, ?_, by simpa using hc⟩
      simp [pySplitAux, hd, hne]
    · have hd' : isWS d = false := by simpa using hd
      have := ih (d :: acc) c (List.mem_cons_of_mem d hc)
      simpa [pySplitAux, hd'] using this

theorem pySplitAux_mem (l : List Char) :
    ∀ (acc : List Char) (c : Char), c ∈ l → isWS c = false →
      ∃ t ∈ pySplitAux l acc, c ∈ t := by
  induction l with
  | nil => intro acc c hc; cases hc
  | cons d ds ih =>
    intro acc c hc hcw
    by_cases hd : isWS d
    · have hcd : c ≠ d := fun h => by rw [h, hd] at hcw; cases hcw
      have hc' : c ∈ ds := by
        rcases List.mem_cons.1 hc with h | h
        · exact absurd h hcd
        · exact h
      rcases ih [] c hc' hcw with ⟨t, ht, hct⟩
      by_cases hacc : acc.isEmpty
      · exact ⟨t, by simpa [pySplitAux, hd, hacc] using ht, hct⟩
      · have hacc' : acc.isEmpty = false := by simpa using hacc
        refine ⟨t, ?_, hct⟩
        simp only [pySplitAux, hd, if_true, hacc', Bool.false_eq_true, if_false]
        exact List.mem_cons_of_mem _ ht
    · have hd' : isWS d = false := by simpa using hd
      rcases List.mem_cons.1 hc with h | h
      · subst h
        have := pySplitAux_mem_acc ds (c :: acc) c (List.mem_cons_self c acc)
        simpa [pySplitAux, hd'] using this
      · have := ih (d :: acc) c h hcw
        simpa [pySplitAux, hd'] using this

/-- Every non-whitespace character of a line occurs in one of its
whitespace tokens. -/
theorem pySplit_mem (l : List Char) (c : Char) (hc : c ∈ l) (hw : isWS c = false) :
    ∃ t ∈ pySplit l, c ∈ t :=
  pySplitAux_mem l [] c hc hw

theorem pySplit_of_all_ws (l : List Char) (h : ∀ c ∈ l, isWS c = true) :
    pySplit l = [] := by
  induction l with
  | nil => rfl
  | cons d ds ih =>
    have hd : isWS d = true := h d (List.mem_cons_self d ds)
    have := ih (fun c hc => h c (List.mem_cons_of_mem d hc))
    simpa [pySplit, pySplitAux, hd] using this

theorem all_ws_of_pyStrip_eq_nil (l : List Char) (h : pyStrip l = []) :
    ∀ c ∈ l, isWS c = true := by
  have h1 : (l.dropWhile isWS).reverse.dropWhile isWS = [] := by
    have := congrArg List.reverse h
    simpa [pyStrip] using this
  have h2 : ∀ x ∈ (l.dropWhile isWS).reverse, isWS x = true :=
    List.dropWhile_eq_nil_iff.1 h1
  intro c hc
  have hsplit : l.takeWhile isWS ++ l.dropWhile isWS = l :=
    List.takeWhile_append_dropWhile ..
  rw [← hsplit] at hc
  rcases List.mem_append.1 hc with h | h
  · exact List.mem_takeWhile_imp h
  · exact h2 c (List.mem_reverse.2 h)

theorem isBlankLine_false_of_pySplit_ne_nil (l : Line) (h : pySplit l ≠ []) :
    isBlankLine l = false := by
  cases hb : isBlankLine l with
  | false => rfl
  | true =>
    exfalso
    apply h
    apply pySplit_of_all_ws
    apply all_ws_of_pyStrip_eq_nil
    simpa [isBlankLine, List.isEmpty_iff] using hb

/-- A substring's characters all occur in the line. -/
theorem containsTok_subset (l p : List Char) (h : containsTok l p = true) :
    ∀ c ∈ p, c ∈ l := by
  rcases List.any_eq_true.1 h with ⟨t, ht, hpt⟩
  have hsuf : t.IsSuffix l := (List.mem_tails t l).1 ht
  have hpre : p.IsPrefix t := List.isPrefixOf_iff_prefix.1 hpt
  exact fun c hc => (hpre.isInfix.trans hsuf.isInfix).subset hc

theorem allDigits_mem {cs : List Char} (h : allDigits cs = true) :
    ∀ c ∈ cs, c.isDigit = true := by
  have h' : (!cs.isEmpty) = true ∧ cs.all (fun c => c.isDigit) = true := by
    simpa [allDigits, Bool.and_eq_true] using h
  exact fun c hc => List.all_eq_true.1 h'.2 c hc

theorem head?_eq_some_cons {l : List Char} {c : Char} (h : l.head? = some c) :
    ∃ l', l = c :: l' := by
  cases l with
  | nil => cases h
  | cons a as =>
    have hac : a = c := by simpa using h
    exact ⟨as, by rw [hac]⟩

theorem pyInt?_chars {t : List Char} {n : Int} (h : pyInt? t = some n) :
    ∀ c ∈ t, c.isDigit = true ∨ c = '+' ∨ c = '-' := by
  unfold pyInt? at h
  by_cases hp : t.head? = some '+'
  · rcases head?_eq_some_cons hp with ⟨tl, rfl⟩
    simp only [List.tail_cons] at h
    rw [if_pos hp] at h
    by_cases hd : allDigits tl = true
    · intro c hc
      rcases List.mem_cons.1 hc with rfl | hc
      · exact Or.inr (Or.inl rfl)
      · exact Or.inl (allDigits_mem hd c hc)
    · rw [if_neg hd] at h; cases h
  · rw [if_neg hp] at h
    by_cases hm : t.head? = some '-'
    · rcases head?_eq_some_cons hm with ⟨tl, rfl⟩
      simp only [List.tail_cons] at h
      rw [if_pos hm] at h
      by_cases hd : allDigits tl = true
      · intro c hc
        rcases List.mem_cons.1 hc with rfl | hc
        · exact Or.inr (Or.inr rfl)
        · exact Or.inl (allDigits_mem hd c hc)
      · rw [if_neg hd] at h; cases h
    · rw [if_neg hm] at h
      by_cases hd : allDigits t = true
      · intro c hc; exact Or.inl (allDigits_mem hd c hc)
      · rw [if_neg hd] at h; cases h

theorem dropWhile_head_false {p : Char → Bool} {l : List Char} {c : Char} {cs : List Char}
    (h : l.dropWhile p = c :: cs) : p c = false := by
  induction l with
  | nil => cases h
  | cons a as ih =>
    rw [List.dropWhile_cons] at h
    by_cases hpa : p a = true
    · rw [if_pos hpa] at h
      exact ih h
    · rw [if_neg hpa] at h
      injection h with h1 _
      rw [← h1]
      simpa using hpa

theorem fracDigits?_chars {mant frac : List Char} (h : fracDigits? mant = some frac) :
    ∀ c ∈ mant, c.isDigit = true ∨ c = '.' := by
  intro c hc
  have hsplit := List.takeWhile_append_dropWhile (p := fun c => c.isDigit) (l := mant)
  rw [← hsplit] at hc
  rcases List.mem_append.1 hc with hc | hc
  · exact Or.inl (List.mem_takeWhile_imp hc)
  · unfold fracDigits? at h
    by_cases h0 : mant.dropWhile (fun c => c.isDigit) = []
    · rw [h0] at hc; cases hc
    · rw [if_neg h0] at h
      by_cases h1 : (mant.dropWhile (fun c => c.isDigit)).head? = some '.'
      · rw [if_pos h1] at h
        rcases head?_eq_some_cons h1 with ⟨rest, hrest⟩
        rw [hrest] at hc
        rcases List.mem_cons.1 hc with rfl | hc2
        · exact Or.inr rfl
        · by_cases h2 : ((!(mant.takeWhile (fun c => c.isDigit)).isEmpty
              || !(mant.dropWhile (fun c => c.isDigit)).tail.isEmpty)
              && (mant.dropWhile (fun c => c.isDigit)).tail.all (fun c => c.isDigit)) = true
          · rw [Bool.and_eq_true] at h2
            refine Or.inl (List.all_eq_true.1 h2.2 c ?_)
            rw [hrest, List.tail_cons]
            exact hc2
          · rw [if_neg h2] at h; cases h
      · rw [if_neg h1] at h; cases h

theorem floatParts?_chars {r : List Char} {x : List Char × List Char × Int}
    (h : floatParts? r = some x) :
    ∀ c ∈ r, c.isDigit = true ∨ c = '.' ∨ c = 'e' ∨ c = 'E' ∨ c = '+' ∨ c = '-' := by
  intro c hc
  rcases Option.bind_eq_some.1 h with ⟨frac, hfrac, hrest⟩
  have hsplit := List.takeWhile_append_dropWhile (p := notExp) (l := r)
  rw [← hsplit] at hc
  rcases List.mem_append.1 hc with hc | hc
  · rcases fracDigits?_chars hfrac c hc with h' | h'
    · exact Or.inl h'
    · exact Or.inr (Or.inl h')
  · by_cases h0 : r.dropWhile notExp = []
    · rw [h0] at hc; cases hc
    · rw [if_neg h0] at hrest
      cases hdrop : r.dropWhile notExp with
      | nil => exact absurd hdrop h0
      | cons d ex =>
        have hd : notExp d = false := dropWhile_head_false hdrop
        have hd' : d = 'e' ∨ d = 'E' := by
          have himp : ¬d = 'e' → d = 'E' := by simpa [notExp] using hd
          by_cases he : d = 'e'
          · exact Or.inl he
          · exact Or.inr (himp he)
        rw [hdrop] at hc
        rcases List.mem_cons.1 hc with rfl | hc2
        · rcases hd' with rfl | rfl
          · exact Or.inr (Or.inr (Or.inl rfl))
          · exact Or.inr (Or.inr (Or.inr (Or.inl rfl)))
        · rcases Option.map_eq_some'.1 hrest with ⟨e, he, _⟩
          have hich := pyInt?_chars he
          rw [hdrop, List.tail_cons] at hich
          rcases hich c hc2 with h' | h' | h'
          · exact Or.inl h'
          · exact Or.inr (Or.inr (Or.inr (Or.inr (Or.inl h'))))
          · exact Or.inr (Or.inr (Or.inr (Or.inr (Or.inr h'))))

theorem pyFloat?_chars {t : List Char} {q : ℚ} (h : pyFloat? t = some q) :
    ∀ c ∈ t, c.isDigit = true ∨ c = '.' ∨ c = 'e' ∨ c = 'E' ∨ c = '+' ∨ c = '-' := by
  unfold pyFloat? at h
  by_cases hp : t.head? = some '+'
  · rcases head?_eq_some_cons hp with ⟨tl, rfl⟩
    rw [if_pos hp] at h
    simp only [List.tail_cons] at h
    rcases Option.map_eq_some'.1 h with ⟨x, hx, _⟩
    intro c hc
    rcases List.mem_cons.1 hc with rfl | hc
    · exact Or.inr (Or.inr (Or.inr (Or.inr (Or.inl rfl))))
    · exact floatParts?_chars hx c hc
  · rw [if_neg hp] at h
    by_cases hm : t.head? = some '-'
    · rcases head?_eq_some_cons hm with ⟨tl, rfl⟩
      rw [if_pos hm] at h
      simp only [List.tail_cons] at h
      rcases Option.map_eq_some'.1 h with ⟨x, hx, _⟩
      intro c hc
      rcases List.mem_cons.1 hc with rfl | hc
      · exact Or.inr (Or.inr (Or.inr (Or.inr (Or.inr rfl))))
      · exact floatParts?_chars hx c hc
    · rw [if_neg hm] at h
      rcases Option.map_eq_some'.1 h with ⟨x, hx, _⟩
      exact floatParts?_chars hx

/-- A line whose whitespace tokens are exactly four numeric literals
contains neither the `month:` nor the `Layer` marker: its characters
are digits, signs, dots, exponent markers and whitespace, so neither a
`:` nor an `L` can occur anywhere in it. -/
theorem dataLine_no_marker {line : Line} {t0 t1 t2 t3 : List Char} {la ro co : Int} {ra : ℚ}
    (hsplit : pySplit line = [t0, t1, t2, t3])
    (h0 : pyInt? t0 = some la) (h1 : pyInt? t1 = some ro) (h2 : pyInt? t2 = some co)
    (h3 : pyFloat? t3 = some ra) :
    containsTok line monthMarker = false ∧ containsTok line layerMarker = false := by
  constructor
  · cases hm : containsTok line monthMarker with
    | false => rfl
    | true =>
      exfalso
      have hcol : ':' ∈ line := containsTok_subset _ _ hm ':' (by decide)
      rcases pySplit_mem line ':' hcol (by decide) with ⟨t, ht, hct⟩
      rw [hsplit] at ht
      simp only [List.mem_cons, List.not_mem_nil, or_false] at ht
      rcases ht with rfl | rfl | rfl | rfl
      · rcases pyInt?_chars h0 ':' hct with h | h | h <;> exact absurd h (by decide)
      · rcases pyInt?_chars h1 ':' hct with h | h | h <;> exact absurd h (by decide)
      · rcases pyInt?_chars h2 ':' hct with h | h | h <;> exact absurd h (by decide)
      · rcases pyFloat?_chars h3 ':' hct with h | h | h | h | h | h <;>
          exact absurd h (by decide)
  · cases hm : containsTok line layerMarker with
    | false => rfl
    | true =>
      exfalso
      have hl : 'L' ∈ line := containsTok_subset _ _ hm 'L' (by decide)
      rcases pySplit_mem line 'L' hl (by decide) with ⟨t, ht, hct⟩
      rw [hsplit] at ht
      simp only [List.mem_cons, List.not_mem_nil, or_false] at ht
      rcases ht with rfl | rfl | rfl | rfl
      · rcases pyInt?_chars h0 'L' hct with h | h | h <;> exact absurd h (by decide)
      · rcases pyInt?_chars h1 'L' hct with h | h | h <;> exact absurd h (by decide)
      · rcases pyInt?_chars h2 'L' hct with h | h | h <;> exact absurd h (by decide)
      · rcases pyFloat?_chars h3 'L' hct with h | h | h | h | h | h <;>
          exact absurd h (by decide)

/-! ## Behaviour of one step of the flow-record scanner -/

/-- A fully parsed `month:` header sets both context fields and emits
nothing. -/
theorem step_header_success {s : PState} {line : Line} {t1 t3 : List Char} {M Y : Int}
    (hm : containsTok line monthMarker = true)
    (hg1 : (pySplit line).get? 1 = some t1) (hM : pyInt? t1 = some M)
    (hg3 : (pySplit line).get? 3 = some t3) (hY : pyInt? t3 = some Y) :
    step s line = ⟨some M, some Y, s.recs⟩ := by
  unfold step
  simp only [hm, if_true, hg1, hM, hg3, hY]

/-- A line that does not contain the `month:` marker leaves the
month/year context unchanged. -/
theorem step_no_header_context {s : PState} {line : Line}
    (hm : containsTok line monthMarker = false) :
    (step s line).month = s.month ∧ (step s line).year = s.year := by
  unfold step
  simp only [hm, Bool.false_eq_true, if_false]
  by_cases hl : containsTok line layerMarker = true
  · simp [hl]
  · simp only [hl]
    by_cases hb : isBlankLine line = true
    · simp [hb]
    · simp only [hb, Bool.false_eq_true, if_false]
      rcases hps : pySplit line with _ | ⟨t0, _ | ⟨t1, _ | ⟨t2, _ | ⟨t3, _ | ⟨t4, rest⟩⟩⟩⟩⟩ <;>
        simp only [] <;>
        [skip; skip; skip; skip;
         (rcases pyInt? t0 with _ | la <;> rcases pyInt? t1 with _ | ro <;>
          rcases pyInt? t2 with _ | co <;> rcases pyFloat? t3 with _ | ra);
         skip] <;> simp

/-- A line whose tokens are exactly four numeric literals appends
exactly one record carrying the current context, and leaves the
context itself unchanged. -/
theorem step_append_of_valid {s : PState} {line : Line} {t0 t1 t2 t3 : List Char}
    {la ro co : Int} {ra : ℚ}
    (hsplit : pySplit line = [t0, t1, t2, t3])
    (h0 : pyInt? t0 = some la) (h1 : pyInt? t1 = some ro) (h2 : pyInt? t2 = some co)
    (h3 : pyFloat? t3 = some ra) :
    step s line = ⟨s.month, s.year, s.recs ++ [⟨s.year, s.month, la, ro, co, ra⟩]⟩ := by
  obtain ⟨hnm, hnl⟩ := dataLine_no_marker hsplit h0 h1 h2 h3
  have hnb : isBlankLine line = false :=
    isBlankLine_false_of_pySplit_ne_nil line (by rw [hsplit]; exact List.cons_ne_nil _ _)
  unfold step
  simp only [hnm, hnl, hnb, Bool.false_eq_true, if_false, hsplit, h0, h1, h2, h3]

/-- Each step grows the record list by one exactly on valid data
lines. -/
theorem step_recs_length (s : PState) (line : Line) :
    ((step s line).recs).length = s.recs.length + (if isDataLine line then 1 else 0) := by
  by_cases hm : containsTok line monthMarker = true
  · have hd : isDataLine line = false := by simp [isDataLine, hm]
    rw [hd]
    unfold step
    simp only [hm, if_true]
    rcases hg1 : (pySplit line).get? 1 with _ | t1
    · simp
    · rcases hM : pyInt? t1 with _ | M
      · simp [hM]
      · rcases hg3 : (pySplit line).get? 3 with _ | t3
        · simp [hM, hg3]
        · rcases hY : pyInt? t3 with _ | Y <;> simp [hM, hg3, hY]
  · have hm' : containsTok line monthMarker = false := by simpa using hm
    by_cases hl : containsTok line layerMarker = true
    · have hd : isDataLine line = false := by simp [isDataLine, hl]
      rw [hd]
      unfold step
      simp [hm', hl]
    · have hl' : containsTok line layerMarker = false := by simpa using hl
      by_cases hb : isBlankLine line = true
      · have hps : pySplit line = [] := by
          apply pySplit_of_all_ws
          apply all_ws_of_pyStrip_eq_nil
          simpa [isBlankLine, List.isEmpty_iff] using hb
        have hd : isDataLine line = false := by simp [isDataLine, hps]
        rw [hd]
        unfold step
        simp [hm', hl', hb]
      · have hb' : isBlankLine line = false := by simpa using hb
        rcases hps : pySplit line with _ | ⟨t0, _ | ⟨t1, _ | ⟨t2, _ | ⟨t3, _ | ⟨t4, rest⟩⟩⟩⟩⟩
        · have hd : isDataLine line = false := by simp [isDataLine, hps]
          rw [hd]; unfold step; simp [hm', hl', hb', hps]
        · have hd : isDataLine line = false := by simp [isDataLine, hps]
          rw [hd]; unfold step; simp [hm', hl', hb', hps]
        · have hd : isDataLine line = false := by simp [isDataLine, hps]
          rw [hd]; unfold step; simp [hm', hl', hb', hps]
        · have hd : isDataLine line = false := by simp [isDataLine, hps]
          rw [hd]; unfold step; simp [hm', hl', hb', hps]
        · rcases hq0 : pyInt? t0 with _ | la
          · have hd : isDataLine line = false := by simp [isDataLine, hps, hq0]
            rw [hd]; unfold step; simp [hm', hl', hb', hps, hq0]
          · rcases hq1 : pyInt? t1 with _ | ro
            · have hd : isDataLine line = false := by simp [isDataLine, hps, hq1]
              rw [hd]; unfold step; simp [hm', hl', hb', hps, hq0, hq1]
            · rcases hq2 : pyInt? t2 with _ | co
              · have hd : isDataLine line = false := by simp [isDataLine, hps, hq2]
                rw [hd]; unfold step; simp [hm', hl', hb', hps, hq0, hq1, hq2]
              · rcases hq3 : pyFloat? t3 with _ | ra
                · have hd : isDataLine line = false := by simp [isDataLine, hps, hq3]
                  rw [hd]; unfold step; simp [hm', hl', hb', hps, hq0, hq1, hq2, hq3]
                · have hd : isDataLine line = true := by
                    simp [isDataLine, hm', hl', hps, hq0, hq1, hq2, hq3]
                  rw [hd, step_append_of_valid hps hq0 hq1 hq2 hq3]
                  simp
        · have hd : isDataLine line = false := by simp [isDataLine, hps]
          rw [hd]; unfold step; simp [hm', hl', hb', hps]

/-- Folding the scanner over a file grows the record list by the number
of valid data lines. -/
theorem foldl_recs_length (ls : List Line) :
    ∀ s : PState, ((ls.foldl step s).recs).length = s.recs.length + ls.countP isDataLine := by
  induction ls with
  | nil => intro s; simp
  | cons l ls ih =>
    intro s
    rw [List.foldl_cons, ih, step_recs_length, List.countP_cons]
    by_cases hdl : isDataLine l = true
    · simp [hdl]; omega
    · simp only [Bool.not_eq_true] at hdl
      simp [hdl]

/-! ## Claims about the flow-record scanner -/

/-- C1: every input line consisting of exactly four whitespace tokens
parsing as (int layer, int row, int column, float rate), processed
while the running context holds month `M` and year `Y` (as established
by a successfully parsed `month:` header and unchanged by any later
line), makes the scanner emit exactly one record
`(Y, M, layer, row, column, rate)`; a fully parsed header sets the
context to its values, and a line without the `month:` marker never
changes the context.  In particular the lines `"month: 3 year: 1990"`
then `"1 5 10 -123.45"` yield exactly the one record
`FlowRecord(year=1990, month=3, layer=1, row=5, column=10,
rate=-123.45)`. -/
theorem C1_valid_data_line_emits_one_record :
    (∀ (s : PState) (line : Line) (t1 t3 : List Char) (M Y : Int),
       containsTok line monthMarker = true →
       (pySplit line).get? 1 = some t1 → pyInt? t1 = some M →
       (pySplit line).get? 3 = some t3 → pyInt? t3 = some Y →
       step s line = ⟨some M, some Y, s.recs⟩) ∧
    (∀ (s : PState) (line : Line),
       containsTok line monthMarker = false →
       (step s line).month = s.month ∧ (step s line).year = s.year) ∧
    (∀ (s : PState) (line : Line) (t0 t1 t2 t3 : List Char) (M Y la ro co : Int) (ra : ℚ),
       s.month = some M → s.year = some Y →
       pySplit line = [t0, t1, t2, t3] →
       pyInt? t0 = some la → pyInt? t1 = some ro → pyInt? t2 = some co →
       pyFloat? t3 = some ra →
       step s line = ⟨some M, some Y, s.recs ++ [⟨some Y, some M, la, ro, co, ra⟩]⟩) ∧
    process_swatmf_data ["month: 3 year: 1990".toList, "1 5 10 -123.45".toList] =
      [⟨some 1990, some 3, 1, 5, 10, (-123.45 : ℚ)⟩] := by
  refine ⟨?_, ?_, ?_, ?_⟩
  · intro s line t1 t3 M Y hm hg1 hM hg3 hY
    exact step_header_success hm hg1 hM hg3 hY
  · intro s line hm
    exact step_no_header_context hm
  · intro s line t0 t1 t2 t3 M Y la ro co ra hsM hsY hsplit h0 h1 h2 h3
    rw [step_append_of_valid hsplit h0 h1 h2 h3, hsM, hsY]
  · have h : process_swatmf_data ["month: 3 year: 1990".toList, "1 5 10 -123.45".toList] =
        [⟨some 1990, some 3, 1, 5, 10, mkRat (-12345) 100⟩] := by decide
    have hq : (mkRat (-12345) 100 : ℚ) = (-123.45 : ℚ) := by
      rw [Rat.mkRat_eq_div]; norm_num
    rw [h, hq]

/-- Witness for C1 at the concrete data line of the claim, under the
context established by its header. -/
theorem C1_witness :
    step ⟨some 3, some 1990, []⟩ "1 5 10 -123.45".toList =
      ⟨some 3, some 1990, [⟨some 1990, some 3, 1, 5, 10, mkRat (-12345) 100⟩]⟩ :=
  C1_valid_data_line_emits_one_record.2.2.1 ⟨some 3, some 1990, []⟩
    "1 5 10 -123.45".toList "1".toList "5".toList "10".toList "-123.45".toList
    3 1990 1 5 10 (mkRat (-12345) 100)
    rfl rfl (by decide) (by decide) (by decide) (by decide) (by decide)

/-- C2 counterexample: the file consisting of the single valid data
line `"1 5 10 -123.45"` — with no `month:` header anywhere — produces
one record (carrying missing year/month), where the claim requires
that no record derive from a data line occurring before any header
(and a count of zero). -/
theorem C2_counterexample :
    process_swatmf_data ["1 5 10 -123.45".toList] =
      [⟨none, none, 1, 5, 10, mkRat (-12345) 100⟩] := by decide

/-- C2 (amended): the scanner's output has exactly one record per
syntactically valid 4-token data line, whether or not a month/year
context has been established when the line is reached; a valid data
line seen before any header emits a record with missing (`None`)
year and month rather than being excluded. -/
theorem C2_record_count (ls : List Line) :
    (process_swatmf_data ls).length = ls.countP isDataLine := by
  have h := foldl_recs_length ls ⟨none, none, []⟩
  simpa [process_swatmf_data] using h

/-- C4 counterexample: on the line `"month: 5 year: x"` (month token
parses, year token does not) processed from state
(month=1, year=2000), `current_month` is changed to 5, where the claim
requires both pieces of state to be left unchanged. -/
theorem C4_counterexample :
    step ⟨some 1, some 2000, []⟩ "month: 5 year: x".toList = ⟨some 5, some 2000, []⟩ ∧
    (⟨some 5, some 2000, []⟩ : PState) ≠ ⟨some 1, some 2000, []⟩ := by
  exact ⟨by decide, by decide⟩

/-- C4 (amended): on a `month:` line whose header parse fails,
`current_year` and the record list are never changed, and no record is
emitted; `current_month` is unchanged when the token at position 1 is
missing or not an integer, but — the two assignments committing in
order — it is updated to the parsed value when the position-1 token
parses and the position-3 token is missing or not an integer. -/
theorem C4_header_parse_failure (s : PState) (line : Line)
    (hm : containsTok line monthMarker = true) :
    (tokIntFails (pySplit line) 1 = true → step s line = s) ∧
    (∀ (t1 : List Char) (M : Int),
       (pySplit line).get? 1 = some t1 → pyInt? t1 = some M →
       tokIntFails (pySplit line) 3 = true →
       step s line = ⟨some M, s.year, s.recs⟩) := by
  constructor
  · intro hf
    unfold step
    simp only [hm, if_true]
    rcases hg1 : (pySplit line).get? 1 with _ | t1
    · simp
    · have hf' : (pyInt? t1).isNone = true := by
        simp only [tokIntFails, hg1] at hf
        exact hf
      rcases hM : pyInt? t1 with _ | M
      · simp [hM]
      · rw [hM] at hf'; cases hf'
  · intro t1 M hg1 hM hf
    unfold step
    simp only [hm, if_true, hg1, hM]
    rcases hg3 : (pySplit line).get? 3 with _ | t3
    · simp
    · have hf' : (pyInt? t3).isNone = true := by
        simp only [tokIntFails, hg3] at hf
        exact hf
      rcases hY : pyInt? t3 with _ | Y
      · simp [hY]
      · rw [hY] at hf'; cases hf'

/-- Witness for C4 (amended) at the concrete line of the
counterexample. -/
theorem C4_witness :
    step ⟨some 1, some 2000, []⟩ "month: 5 year: x".toList = ⟨some 5, some 2000, []⟩ :=
  (C4_header_parse_failure ⟨some 1, some 2000, []⟩ "month: 5 year: x".toList
    (by decide)).2 "5".toList 5 (by decide) (by decide) (by decide)

/-! ## Claims about the recharge scanner and its post-processing -/

/-- C9: every successfully parsed `month:` header line resets the
accumulator for its `(year, month)` key to the empty list (besides
setting the context and turning reading on); consequently a duplicated
header discards the rows gathered under its earlier occurrences —
concretely, the file `"month: 1 year: 2000" / "1 2" /
"month: 1 year: 2000" / "3 4"` leaves exactly `[[3, 4]]` under key
`(2000, 1)`. -/
theorem C9_header_resets_accumulator :
    (∀ (s : RState) (rawLine : Line) (t1 t3 : List Char) (m y : Int),
       containsTok (pyStrip rawLine) monthMarker = true →
       (pySplit (pyStrip rawLine)).get? 1 = some t1 → pyInt? t1 = some m →
       (pySplit (pyStrip rawLine)).get? 3 = some t3 → pyInt? t3 = some y →
       rstep s rawLine = ⟨dictSet s.data (y, m) [], some y, some m, true⟩) ∧
    dictGet? (processRecharge ["month: 1 year: 2000".toList, "1 2".toList,
        "month: 1 year: 2000".toList, "3 4".toList]).data (2000, 1) =
      some [[mkRat 3 1, mkRat 4 1]] := by
  constructor
  · intro s rawLine t1 t3 m y hm hg1 hM hg3 hY
    unfold rstep
    simp only [hm, if_true, hg1, hM, hg3, hY]
  · decide

/-- Witness for C9 at the first header line of its concrete file. -/
theorem C9_witness :
    rstep ⟨[], none, none, false⟩ "month: 1 year: 2000".toList =
      ⟨[((2000, 1), [])], some 2000, some 1, true⟩ :=
  C9_header_resets_accumulator.1 ⟨[], none, none, false⟩ "month: 1 year: 2000".toList
    "1".toList "2000".toList 1 2000 (by decide) (by decide) (by decide) (by decide) (by decide)

/-- C3 counterexample: a homogeneous block of 94 rows of 68 values
(total `68 * 94` elements but not the 68×94 shape) is reshaped without
any error — `reshapeBlock` returns a grid — where the claim requires a
detectable error for every block not of shape 68×94. -/
theorem C3_counterexample :
    (List.replicate 94 (List.replicate 68 (0 : ℚ))).length ≠ 68 ∧
    (reshapeBlock (List.replicate 94 (List.replicate 68 (0 : ℚ)))).isSome = true := by
  refine ⟨by decide, ?_⟩
  have hall : (List.replicate 94 (List.replicate 68 (0 : ℚ))).all
      (fun r => r.length = ((List.replicate 94 (List.replicate 68 (0 : ℚ))).headD []).length)
      = true := by
    simp [List.all_eq_true, List.mem_replicate]
  have hlen : (List.replicate 94 (List.replicate 68 (0 : ℚ))).flatten.length = 6392 := by
    rw [List.length_flatten, List.map_replicate, List.sum_replicate]; norm_num
  have hne : ((List.replicate 94 (List.replicate 68 (0 : ℚ))).flatten).isEmpty = false := by
    cases hflat : (List.replicate 94 (List.replicate 68 (0 : ℚ))).flatten with
    | nil => rw [hflat] at hlen; simp at hlen
    | cons a as => rfl
  rw [reshapeBlock, if_pos hall, hne]
  rw [if_neg (by decide), if_pos (by rw [hlen])]
  rfl

/-- C3 (amended): post-processing raises a detectable error (modelled
`none`) exactly for ragged blocks — rows of unequal lengths — and for
nonempty homogeneous blocks whose total element count differs from
`68 * 94`; a homogeneous block with the right total but a different
row/column split (such as 94 rows of 68) is instead silently reshaped
into a reinterpreted 68×94 grid. -/
theorem C3_reshape_error_conditions (rows : List (List ℚ)) :
    (rows.all (fun r => r.length = (rows.headD []).length) = false →
      reshapeBlock rows = none) ∧
    (rows.all (fun r => r.length = (rows.headD []).length) = true →
      rows.flatten ≠ [] → rows.flatten.length ≠ 68 * 94 →
      reshapeBlock rows = none) := by
  constructor
  · intro h
    unfold reshapeBlock
    rw [h]
    simp
  · intro hall hne hlen
    unfold reshapeBlock
    rw [if_pos hall]
    have hemp : rows.flatten.isEmpty = false := by
      cases hflat : rows.flatten with
      | nil => exact absurd hflat hne
      | cons a as => rfl
    rw [hemp]
    rw [if_neg (by decide), if_neg hlen]

/-- Witness for C3 (amended): the ragged block `[[1], [2, 3]]`
raises. -/
theorem C3_witness : reshapeBlock [[(1 : ℚ)], [2, 3]] = none :=
  (C3_reshape_error_conditions [[(1 : ℚ)], [2, 3]]).1 (by decide)

/-- C5: the monthly recharge mean is the element-wise mean over that
month's grids computed only over non-missing cell values (it agrees
with the spec-side `specMonthlyMeanCell` at every cell); a cell missing
in every grid of the month is missing in the result; and the mean over
one all-`q` grid plus one all-missing grid is all `q`. -/
theorem C5_monthly_mean_ignores_missing :
    (∀ (data : List ((Int × Int) × RGrid)) (m : Int) (g : RGrid),
       compute_monthly_mean data m = some g →
       ∀ (i : Fin 68) (j : Fin 94), g i j = specMonthlyMeanCell data m i j) ∧
    (∀ (data : List ((Int × Int) × RGrid)) (m : Int) (g : RGrid) (i : Fin 68) (j : Fin 94),
       compute_monthly_mean data m = some g →
       (∀ p ∈ data, p.1.2 = m → p.2 i j = none) → g i j = none) ∧
    (∀ q : ℚ, compute_monthly_mean
        [((2020, 7), fun _ _ => some q), ((2021, 7), fun _ _ => none)] 7 =
      some (fun _ _ => some q)) := by
  have key : ∀ (data : List ((Int × Int) × RGrid)) (m : Int) (g : RGrid),
      compute_monthly_mean data m = some g →
      ∀ (i : Fin 68) (j : Fin 94), g i j = specMonthlyMeanCell data m i j := by
    intro data m g hg i j
    unfold compute_monthly_mean at hg
    by_cases hempty : ((data.filter (fun e => e.1.2 = m)).map (fun e => e.2)).isEmpty = true
    · rw [if_pos hempty] at hg; cases hg
    · rw [if_neg hempty] at hg
      have hg' := Option.some.inj hg
      rw [← hg']
      show nanmean _ = _
      unfold nanmean specMonthlyMeanCell
      rw [List.map_map]
      congr 1 <;> rw [List.filterMap_map] <;> rfl
  refine ⟨key, ?_, ?_⟩
  · intro data m g i j hg hall
    rw [key data m g hg i j]
    unfold specMonthlyMeanCell
    have hnil : (data.filter (fun e => e.1.2 = m)).filterMap (fun e => e.2 i j) = [] := by
      rw [List.filterMap_eq_nil_iff]
      intro p hp
      exact hall p (List.mem_of_mem_filter hp) (by simpa using List.of_mem_filter hp)
    rw [hnil]
    simp
  · intro q
    have hcond : ((([((2020, 7), fun _ _ => some q), ((2021, 7), fun _ _ => none)] :
        List ((Int × Int) × RGrid)).filter (fun e => e.1.2 = 7)).map
          (fun e => e.2)).isEmpty = false := rfl
    unfold compute_monthly_mean
    rw [hcond]
    simp only [Bool.false_eq_true, if_false]
    congr 1
    funext i j
    show nanmean [some q, none] = some q
    unfold nanmean
    simp

/-- Witness for C5 at the two-grid example (one all-5 grid, one
all-missing grid). -/
theorem C5_witness :
    (fun (_ : Fin 68) (_ : Fin 94) => some (5 : ℚ)) (0 : Fin 68) (0 : Fin 94) =
      specMonthlyMeanCell
        [((2020, 7), fun _ _ => some (5 : ℚ)), ((2021, 7), fun _ _ => none)] 7 0 0 :=
  C5_monthly_mean_ignores_missing.1
    [((2020, 7), fun _ _ => some (5 : ℚ)), ((2021, 7), fun _ _ => none)] 7
    (fun _ _ => some (5 : ℚ)) (C5_monthly_mean_ignores_missing.2.2 5) 0 0

/-- C6: a group of the flow aggregation containing exactly one record
has its standard deviation undefined (NaN, modelled by `std2 = none`),
not zero. -/
theorem C6_single_record_std_nan (recs : List FlowRecord) (k : Int × Int × Int)
    (h : (ratesAt recs k).length = 1) :
    (monthly_stats recs k).map MonthlyStat.std2 = some none := by
  have hne : ratesAt recs k ≠ [] := by
    intro h0; rw [h0] at h; cases h
  unfold monthly_stats
  rw [if_neg hne]
  simp [sampleVar?, h]

/-- Witness for C6 on a one-record collection. -/
theorem C6_witness :
    (monthly_stats [⟨some 2000, some 1, 1, 2, 3, 5⟩] (1, 2, 3)).map MonthlyStat.std2 =
      some none :=
  C6_single_record_std_nan [⟨some 2000, some 1, 1, 2, 3, 5⟩] (1, 2, 3) (by decide)

/-! ## Claims about the unit converter -/

/-- C7: the converter computes `value * days * 1000 / area` with the
non-leap-year day table (Jan=31, Feb=28, Mar=31, Apr=30, May=31,
Jun=30, Jul=31, Aug=31, Sep=30, Oct=31, Nov=30, Dec=31), and
converting 1 m³/day in a 31-day month over a 90000 m² cell gives
31/90 = 0.3444… mm/month. -/
theorem C7_unit_conversion :
    (∀ (v a : ℚ) (m : Int) (d : ℚ), days_in_month m = some d →
       convert_recharge_to_mm_per_month v m a = some (v * d * 1000 / a)) ∧
    (days_in_month 1 = some 31 ∧ days_in_month 2 = some 28 ∧ days_in_month 3 = some 31 ∧
     days_in_month 4 = some 30 ∧ days_in_month 5 = some 31 ∧ days_in_month 6 = some 30 ∧
     days_in_month 7 = some 31 ∧ days_in_month 8 = some 31 ∧ days_in_month 9 = some 30 ∧
     days_in_month 10 = some 31 ∧ days_in_month 11 = some 30 ∧
     days_in_month 12 = some 31) ∧
    convert_recharge_to_mm_per_month 1 1 90000 = some (31 / 90 : ℚ) := by
  refine ⟨?_, by decide, ?_⟩
  · intro v a m d hd
    unfold convert_recharge_to_mm_per_month
    rw [hd, Option.map_some']
    congr 1
    ring
  · unfold convert_recharge_to_mm_per_month days_in_month
    norm_num

/-- Witness for C7's general formula in March. -/
theorem C7_witness :
    convert_recharge_to_mm_per_month 2 3 100 = some (2 * 31 * 1000 / 100 : ℚ) :=
  C7_unit_conversion.1 2 100 3 31 (by decide)

/-- C10: the converter is defined exactly on months 1–12: the day-table
lookup succeeds precisely when `1 ≤ month ≤ 12`, and for any other
month the lookup raises (`none`) before any arithmetic happens. -/
theorem C10_domain (m : Int) (v a : ℚ) :
    (convert_recharge_to_mm_per_month v m a).isSome = true ↔ (1 ≤ m ∧ m ≤ 12) := by
  have hd : (days_in_month m).isSome = true ↔ (1 ≤ m ∧ m ≤ 12) := by
    constructor
    · intro h
      by_contra hc
      have hne : days_in_month m = none := by
        unfold days_in_month
        repeat rw [if_neg (by omega)]
      rw [hne] at h; cases h
    · rintro ⟨h1, h2⟩
      interval_cases m <;> rfl
  unfold convert_recharge_to_mm_per_month
  rw [Option.isSome_map']
  exact hd

/-! ## Re-aggregation (C8) -/

theorem mem_statKeys {recs : List FlowRecord} {k : Int × Int × Int} :
    k ∈ statKeys recs ↔
      ∃ r ∈ recs, r.month = some k.1 ∧ r.row = k.2.1 ∧ r.col = k.2.2 := by
  unfold statKeys
  rw [List.mem_dedup, List.mem_filterMap]
  constructor
  · rintro ⟨r, hr, hmap⟩
    rcases Option.map_eq_some'.1 hmap with ⟨m, hm, hk⟩
    refine ⟨r, hr, ?_, ?_, ?_⟩
    · rw [hm, ← hk]
    · rw [← hk]
    · rw [← hk]
  · rintro ⟨r, hr, hm, hrow, hcol⟩
    refine ⟨r, hr, ?_⟩
    rw [hm, Option.map_some', hrow, hcol]

theorem statKeys_nodup (recs : List FlowRecord) : (statKeys recs).Nodup := by
  unfold statKeys
  exact List.nodup_dedup _

theorem ratesAt_ne_nil_iff {recs : List FlowRecord} {k : Int × Int × Int} :
    ratesAt recs k ≠ [] ↔ k ∈ statKeys recs := by
  rw [mem_statKeys]
  constructor
  · intro h
    have hne : recs.filter (fun r =>
        r.month = some k.1 ∧ r.row = k.2.1 ∧ r.col = k.2.2) ≠ [] := by
      intro h0
      apply h
      unfold ratesAt
      rw [h0]
      rfl
    rcases List.exists_mem_of_ne_nil _ hne with ⟨r, hr⟩
    have hr' := List.mem_filter.1 hr
    exact ⟨r, hr'.1, by simpa using hr'.2⟩
  · rintro ⟨r, hr, hP⟩
    have hmem : r ∈ recs.filter (fun r =>
        r.month = some k.1 ∧ r.row = k.2.1 ∧ r.col = k.2.2) :=
      List.mem_filter.2 ⟨hr, by simpa using hP⟩
    have hm2 : r.rate ∈ ratesAt recs k := by
      unfold ratesAt
      exact List.mem_map_of_mem _ hmem
    exact List.ne_nil_of_mem hm2

theorem filter_eq_singleton_of_nodup {α : Type} [DecidableEq α] {l : List α}
    (hl : l.Nodup) (k : α) :
    l.filter (fun x => x = k) = if k ∈ l then [k] else [] := by
  induction l with
  | nil => simp
  | cons a l ih =>
    rw [List.nodup_cons] at hl
    rw [List.filter_cons]
    by_cases hak : a = k
    · subst hak
      rw [if_pos (by simp), if_pos (List.mem_cons_self a l), ih hl.2, if_neg hl.1]
    · rw [if_neg (by simpa using hak), ih hl.2]
      by_cases hkl : k ∈ l
      · rw [if_pos hkl, if_pos (List.mem_cons_of_mem a hkl)]
      · rw [if_neg hkl, if_neg (by
          intro hc
          rcases List.mem_cons.1 hc with h | h
          · exact hak h.symm
          · exact hkl h)]

theorem ratesAt_restat (recs : List FlowRecord) (k : Int × Int × Int) :
    ratesAt (restat recs) k =
      if k ∈ statKeys recs then [sampleMean (ratesAt recs k)] else [] := by
  unfold ratesAt restat
  rw [List.filter_map]
  have hcong : (statKeys recs).filter
      ((fun r : FlowRecord =>
          decide (r.month = some k.1 ∧ r.row = k.2.1 ∧ r.col = k.2.2)) ∘
        (fun k' : Int × Int × Int =>
          (⟨none, some k'.1, 0, k'.2.1, k'.2.2, sampleMean (ratesAt recs k')⟩ : FlowRecord))) =
      (statKeys recs).filter (fun x => x = k) := by
    apply List.filter_congr
    intro x _
    simp only [Function.comp]
    rw [decide_eq_decide]
    constructor
    · rintro ⟨h1, h2, h3⟩
      exact Prod.ext (Option.some.inj h1) (Prod.ext h2 h3)
    · rintro rfl
      exact ⟨rfl, rfl, rfl⟩
  rw [hcong, filter_eq_singleton_of_nodup (statKeys_nodup recs) k]
  by_cases hk : k ∈ statKeys recs
  · rw [if_pos hk, if_pos hk]
    rfl
  · rw [if_neg hk, if_neg hk]
    rfl

/-- C8 counterexample: the two records (year 2000, month 1, cell (1,1),
rate 0) and (year 2001, month 1, cell (1,1), rate 2) aggregate to mean
1 with std² = 2 (std = √2, not NaN); re-aggregating the aggregated
collection gives the same mean but std = NaN — not the same values, so
aggregation is not idempotent as claimed. -/
theorem C8_counterexample :
    monthly_stats
        (restat [⟨some 2000, some 1, 1, 1, 1, 0⟩, ⟨some 2001, some 1, 1, 1, 1, 2⟩])
        (1, 1, 1) ≠
      monthly_stats [⟨some 2000, some 1, 1, 1, 1, 0⟩, ⟨some 2001, some 1, 1, 1, 1, 2⟩]
        (1, 1, 1) := by
  have hrates : ratesAt
      [⟨some 2000, some 1, 1, 1, 1, 0⟩, ⟨some 2001, some 1, 1, 1, 1, 2⟩] (1, 1, 1) =
      [0, 2] := by decide
  have hk : ((1 : Int), (1 : Int), (1 : Int)) ∈ statKeys
      [⟨some 2000, some 1, 1, 1, 1, 0⟩, ⟨some 2001, some 1, 1, 1, 1, 2⟩] := by
    rw [mem_statKeys]
    exact ⟨⟨some 2000, some 1, 1, 1, 1, 0⟩, by simp, rfl, rfl, rfl⟩
  have hL : ratesAt
      (restat [⟨some 2000, some 1, 1, 1, 1, 0⟩, ⟨some 2001, some 1, 1, 1, 1, 2⟩])
      (1, 1, 1) = [sampleMean [0, 2]] := by
    rw [ratesAt_restat, if_pos hk, hrates]
  have h1 : monthly_stats
      (restat [⟨some 2000, some 1, 1, 1, 1, 0⟩, ⟨some 2001, some 1, 1, 1, 1, 2⟩])
      (1, 1, 1) = some ⟨sampleMean [sampleMean [0, 2]], sampleVar? [sampleMean [0, 2]]⟩ := by
    unfold monthly_stats
    rw [hL, if_neg (List.cons_ne_nil _ _)]
  have h2 : monthly_stats
      [⟨some 2000, some 1, 1, 1, 1, 0⟩, ⟨some 2001, some 1, 1, 1, 1, 2⟩] (1, 1, 1) =
      some ⟨sampleMean [0, 2], sampleVar? [0, 2]⟩ := by
    unfold monthly_stats
    rw [hrates, if_neg (List.cons_ne_nil _ _)]
  have h3 : sampleVar? [(0 : ℚ), 2] = some 2 := by
    unfold sampleVar? sampleMean
    norm_num
  have h4 : sampleVar? [sampleMean [(0 : ℚ), 2]] = none := by
    unfold sampleVar?
    norm_num
  intro heq
  rw [h1, h2, h3, h4] at heq
  have hfields := Option.some.inj heq
  have hstd := congrArg MonthlyStat.std2 hfields
  simp at hstd

/-- C8 (amended): re-aggregating the aggregated collection preserves
the group keys and every group's mean, but every group's standard
deviation collapses to NaN (each re-aggregated group holds exactly one
value, its mean); so aggregation is idempotent on the means only. -/
theorem C8_reaggregation_mean_only (recs : List FlowRecord) (k : Int × Int × Int) :
    monthly_stats (restat recs) k =
      (monthly_stats recs k).map (fun st => ⟨st.mean, none⟩) := by
  by_cases hk : k ∈ statKeys recs
  · have hrr : ratesAt (restat recs) k = [sampleMean (ratesAt recs k)] := by
      rw [ratesAt_restat, if_pos hk]
    have hne : ratesAt recs k ≠ [] := ratesAt_ne_nil_iff.2 hk
    unfold monthly_stats
    rw [hrr, if_neg (List.cons_ne_nil _ _), if_neg hne, Option.map_some']
    have hmean : sampleMean [sampleMean (ratesAt recs k)] = sampleMean (ratesAt recs k) := by
      unfold sampleMean
      simp
    have hvar : sampleVar? [sampleMean (ratesAt recs k)] = none := by
      unfold sampleVar?
      simp
    rw [hmean, hvar]
  · have hrr : ratesAt (restat recs) k = [] := by
      rw [ratesAt_restat, if_neg hk]
    have hnil : ratesAt recs k = [] := by
      by_contra h
      exact hk (ratesAt_ne_nil_iff.1 h)
    unfold monthly_stats
    rw [hrr, hnil]
    simp

end Koki

